import Mathlib

/-!
Verification of the HSN validation agent core.

This file gives a shallow embedding of the load-normalize-validate pipeline of
`src/agent_core.py` (functions `load_and_process_hsn_data` and
`validate_hsn_code_from_gsheet`) together with the configuration check it
performs via `src/config.py`.  Spreadsheet cell values are strings, raw sheet
records are ordered association lists from header to cell value (Python dicts
preserve insertion order), and the process-wide pair of globals
(`HSN_DATA`, `HSN_CODE_TO_DESCRIPTION_MAP`) is a `GlobalState`.
-/

/-- Python `str.strip()`: remove leading and trailing whitespace. -/
def pyStrip (s : String) : String :=
  String.mk (((s.data.dropWhile Char.isWhitespace).reverse.dropWhile Char.isWhitespace).reverse)

/-- Python `str.isdigit()` restricted to ASCII: non-empty and all characters
are decimal digits. -/
def pyIsDigit (s : String) : Bool :=
  !s.data.isEmpty && s.data.all Char.isDigit

/-- The header normalization `header.lower().replace(" ", "").replace("_", "")`
from `agent_core.py` lines 60 and 72: lower-case, then remove every space, then
remove every underscore. -/
def pyNormalizeHeader (s : String) : String :=
  String.mk (((s.data.map Char.toLower).filter (fun c => !(c == ' '))).filter (fun c => !(c == '_')))

/-- A raw spreadsheet record: ordered mapping from column-header string to
cell-value string, as returned by `worksheet.get_all_records(empty_value='')`. -/
abbrev RawRecord : Type := List (String × String)

/-- Python `row_dict.get(key, '')`: the value under the first matching key,
or the empty string when the key is absent. -/
def recordGet (r : RawRecord) (k : String) : String :=
  ((List.find? (fun p => decide (p.1 = k)) r).map Prod.snd).getD ""

/-- The headers of a record, `list(row_dict.keys())`, in insertion order. -/
def recordHeaders (r : RawRecord) : List String :=
  r.map Prod.fst

/-- A normalized row `{'HSNCode': ..., 'Description': ...}`. -/
structure CanonicalRow where
  code : String
  description : String
deriving DecidableEq

/-- Python dict assignment `d[k] = v`: if the key is present, update its value
in place; otherwise append the pair at the end. -/
def dictInsert (d : List (String × String)) (k v : String) : List (String × String) :=
  if d.any (fun p => decide (p.1 = k)) then
    d.map (fun p => if p.1 = k then (k, v) else p)
  else
    d ++ [(k, v)]

/-- Python dict lookup `d[k]` (as an option): the value stored under `k`. -/
def dictLookup (d : List (String × String)) (k : String) : Option String :=
  (List.find? (fun p => decide (p.1 = k)) d).map Prod.snd

/-- Python `dict(pd.Series(desc, index=hsn))`: build a dict from the rows in order;
a repeated code overwrites the earlier description (last occurrence wins). -/
def buildDict (t : List CanonicalRow) : List (String × String) :=
  t.foldl (fun d r => dictInsert d r.code r.description) []

/-- Header resolution for one expected role (`agent_core.py` lines 59-67 and
71-79): the first actual header whose normalized form equals the normalized
expected key, else the expected key itself, literally. -/
def resolveHeader (headers : List String) (key : String) : String :=
  match List.find? (fun h => decide (pyNormalizeHeader h = pyNormalizeHeader key)) headers with
  | some h => h
  | none => key

/-- Both columns are resolved from the headers of the first raw record only
(`sheet_headers = list(raw_data[0].keys())`, line 55). -/
def resolveColumns (firstRecord : RawRecord) (hsnKey descKey : String) : String × String :=
  (resolveHeader (recordHeaders firstRecord) hsnKey,
   resolveHeader (recordHeaders firstRecord) descKey)

/-- One iteration of the normalization loop (lines 81-85): extract the two
resolved columns (missing key gives the empty string) and trim both. -/
def toCanonical (cols : String × String) (r : RawRecord) : CanonicalRow :=
  ⟨pyStrip (recordGet r cols.1), pyStrip (recordGet r cols.2)⟩

/-- The full normalization pass: resolve the columns from the first record,
then map every record to a `CanonicalRow` (no record is dropped here). -/
def canonicalRows (hsnKey descKey : String) (raw : List RawRecord) : List CanonicalRow :=
  match raw with
  | [] => []
  | r :: _ => raw.map (toCanonical (resolveColumns r hsnKey descKey))

/-- The row filter of lines 109-110:
`(data_df['HSNCode'] != '') & (data_df['HSNCode'].apply(lambda x: x.isdigit()))`. -/
def rowKeep (r : CanonicalRow) : Bool :=
  decide (r.code ≠ "") && pyIsDigit r.code

/-- Map construction of lines 116-122.  `dropna` is the identity here because
every cell is a string; the `!= ''` refilter mirrors line 118; an empty table
yields the empty map (line 122). -/
def mkIndex (t : List CanonicalRow) : List (String × String) :=
  if t.isEmpty then []
  else buildDict (t.filter (fun r => decide (r.code ≠ "")))

/-- The three configuration values consulted by the loader
(`config.SPREADSHEET_ID`, `config.HSN_SHEET_NAME`,
`config.SERVICE_ACCOUNT_FILE_PATH`), each possibly unset. -/
structure Config where
  SPREADSHEET_ID : Option String
  HSN_SHEET_NAME : Option String
  SERVICE_ACCOUNT_FILE_PATH : Option String
deriving DecidableEq

/-- Python truthiness of an optional string: `None` and `""` are falsy. -/
def truthy (o : Option String) : Bool :=
  match o with
  | none => false
  | some s => !(s == "")

/-- Python `all([sheet_id, sheet_name, creds_path])` of line 31. -/
def configOk (cfg : Config) : Bool :=
  truthy cfg.SPREADSHEET_ID && truthy cfg.HSN_SHEET_NAME && truthy cfg.SERVICE_ACCOUNT_FILE_PATH

/-- The process-wide pair of globals written by the loader and read by the
validator: `HSN_DATA` (as its list of rows) and
`HSN_CODE_TO_DESCRIPTION_MAP` (as an insertion-ordered dict). -/
structure GlobalState where
  HSN_DATA : List CanonicalRow
  HSN_CODE_TO_DESCRIPTION_MAP : List (String × String)
deriving DecidableEq

/-- The loader `load_and_process_hsn_data` as a function of the configuration and of the
raw records the fetch collaborator returned (the fetch itself, reached only
when the configuration check passes, is the `raw` argument).  Aborts on
missing configuration (lines 31-35) or empty fetch result (lines 39-43) with
both globals reset to empty; otherwise normalizes, filters and builds the map
(lines 49-122).  The missing-column reset of lines 97-101 is unreachable once
`raw` is non-empty, since every record contributes a normalized row. -/
def load_and_process_hsn_data (cfg : Config) (hsnKey descKey : String)
    (raw : List RawRecord) : GlobalState :=
  if !configOk cfg then ⟨[], []⟩
  else if raw.isEmpty then ⟨[], []⟩
  else
    let table := (canonicalRows hsnKey descKey raw).filter rowKeep
    ⟨table, mkIndex table⟩

/-- The loader's effect on the process-wide state: it rebuilds both globals
wholesale, never consulting the previous state. -/
def loadStep (prev : GlobalState) (cfg : Config) (hsnKey descKey : String)
    (raw : List RawRecord) : GlobalState :=
  let _ := prev
  load_and_process_hsn_data cfg hsnKey descKey raw

/-- The `Union[str, List[str]]` argument of the validator. -/
inductive HsnInput where
  | single (s : String)
  | many (l : List String)
deriving DecidableEq

/-- One validation result dict (line 148). -/
structure Verdict where
  hsn_code : String
  status : String
  message : String
  description : String
deriving DecidableEq

/-- The per-code classification of lines 147-163, applied to an already
trimmed code: empty, then non-numeric, then lookup, in that order. -/
def validateOne (idx : List (String × String)) (code : String) : Verdict :=
  if code = "" then
    ⟨code, "invalid", "HSN code cannot be empty.", ""⟩
  else if !pyIsDigit code then
    ⟨code, "invalid", "HSN code must be numeric.", ""⟩
  else
    match dictLookup idx code with
    | some d => ⟨code, "valid", "HSN code is valid. Description: " ++ d, d⟩
    | none => ⟨code, "invalid", "HSN code not found in master data.", ""⟩

/-- The validator `validate_hsn_code_from_gsheet` (lines 131-164).  When `HSN_DATA` is empty
or the map is empty (line 136; `HSN_DATA is None` never holds since the global
is always a data frame), every input code is echoed untrimmed with status
`error`; otherwise every code is trimmed and classified independently. -/
def validate_hsn_code_from_gsheet (g : GlobalState) (input : HsnInput) : List Verdict :=
  if g.HSN_DATA.isEmpty || g.HSN_CODE_TO_DESCRIPTION_MAP.isEmpty then
    let codes_to_check_list := match input with
      | .single s => [s]
      | .many l => l
    codes_to_check_list.map (fun code =>
      ⟨code, "error", "HSN Master Data from Google Sheet not available or empty.", ""⟩)
  else
    let codes_to_check := match input with
      | .single s => [pyStrip s]
      | .many l => l.map pyStrip
    codes_to_check.map (validateOne g.HSN_CODE_TO_DESCRIPTION_MAP)

/-- The validator's effect on the process-wide state: it only reads the two
globals (`agent_core.py` has no `global` statement and no assignment to them
inside `validate_hsn_code_from_gsheet`), so the state after the call is the
state before it. -/
def validateStep (g : GlobalState) (input : HsnInput) : GlobalState × List Verdict :=
  (g, validate_hsn_code_from_gsheet g input)

/-! ### String and character facts -/

/-- A string is empty exactly when its character list is empty. -/
theorem string_data_eq_nil_iff (s : String) : s.data = [] ↔ s = "" := by
  constructor
  · intro h
    exact String.ext h
  · intro h
    rw [h]

/-- A decimal digit is not a whitespace character. -/
theorem char_digit_not_whitespace {c : Char} (h : c.isDigit = true) :
    c.isWhitespace = false := by
  simp [Char.isDigit] at h
  simp [Char.isWhitespace]
  and_intros <;> (rintro rfl; simp at h)

/-- Dropping leading whitespace from an all-digit character list is the
identity. -/
theorem dropWhile_ws_of_all_digit {l : List Char} (h : l.all Char.isDigit = true) :
    l.dropWhile Char.isWhitespace = l := by
  cases l with
  | nil => rfl
  | cons c t =>
    simp only [List.all_cons, Bool.and_eq_true] at h
    rw [List.dropWhile_cons, char_digit_not_whitespace h.1]
    simp

/-- Trimming an all-digit string is the identity. -/
theorem pyStrip_of_all_digit {s : String} (h : s.data.all Char.isDigit = true) :
    pyStrip s = s := by
  unfold pyStrip
  rw [dropWhile_ws_of_all_digit h,
    dropWhile_ws_of_all_digit (by rw [List.all_reverse]; exact h),
    List.reverse_reverse]

/-- A string passing `pyIsDigit` is non-empty and all-digit. -/
theorem pyIsDigit_spec {s : String} (h : pyIsDigit s = true) :
    s ≠ "" ∧ s.data.all Char.isDigit = true := by
  unfold pyIsDigit at h
  simp only [Bool.and_eq_true, Bool.not_eq_true'] at h
  refine ⟨?_, h.2⟩
  intro he
  rw [he] at h
  simp at h

/-! ### Dict facts -/

/-- Inserting under a key different from the head key steps over the head. -/
theorem dictInsert_cons_ne {p : String × String} {k : String} (d : List (String × String))
    (v : String) (h : p.1 ≠ k) :
    dictInsert (p :: d) k v = p :: dictInsert d k v := by
  unfold dictInsert
  by_cases hd : (d.any fun q => decide (q.1 = k)) = true <;>
    simp [List.any_cons, hd, h]

/-- Looking up a cons cell. -/
theorem dictLookup_cons (p : String × String) (d : List (String × String)) (k : String) :
    dictLookup (p :: d) k = if p.1 = k then some p.2 else dictLookup d k := by
  unfold dictLookup
  by_cases h : p.1 = k
  · rw [List.find?_cons_of_pos _ (by simp [h]), if_pos h]
    rfl
  · rw [List.find?_cons_of_neg _ (by simp [h]), if_neg h]

/-- Looking up the freshly inserted key yields the inserted value. -/
theorem dictLookup_insert_self (d : List (String × String)) (k v : String) :
    dictLookup (dictInsert d k v) k = some v := by
  induction d with
  | nil => simp [dictInsert, dictLookup]
  | cons p d ih =>
    by_cases h : p.1 = k
    · unfold dictInsert
      rw [if_pos (by simp [List.any_cons, h])]
      rw [List.map_cons, if_pos h, dictLookup_cons, if_pos rfl]
    · rw [dictInsert_cons_ne d v h, dictLookup_cons, if_neg h]
      exact ih

/-- The in-place value update under key `k` does not change a lookup under a
different key `c`. -/
theorem find_map_update {c k : String} (v : String) (h : c ≠ k)
    (d : List (String × String)) :
    List.find? (fun q => decide (q.1 = c)) (d.map (fun q => if q.1 = k then (k, v) else q)) =
      List.find? (fun q => decide (q.1 = c)) d := by
  induction d with
  | nil => rfl
  | cons p d ih =>
    rw [List.map_cons]
    by_cases hp : p.1 = k
    · rw [if_pos hp]
      rw [List.find?_cons_of_neg _ (by simp [Ne.symm h]),
        List.find?_cons_of_neg _ (by simp [hp, Ne.symm h])]
      exact ih
    · rw [if_neg hp]
      by_cases hc : p.1 = c
      · rw [List.find?_cons_of_pos _ (by simp [hc]), List.find?_cons_of_pos _ (by simp [hc])]
      · rw [List.find?_cons_of_neg _ (by simp [hc]), List.find?_cons_of_neg _ (by simp [hc])]
        exact ih

/-- Insertion under a different key does not change a lookup. -/
theorem dictLookup_insert_ne {c k : String} (d : List (String × String)) (v : String)
    (h : c ≠ k) :
    dictLookup (dictInsert d k v) c = dictLookup d c := by
  induction d with
  | nil => simp [dictInsert, dictLookup, Ne.symm h]
  | cons p d ih =>
    by_cases hp : p.1 = k
    · unfold dictInsert
      rw [if_pos (by simp [List.any_cons, hp])]
      rw [List.map_cons, if_pos hp]
      rw [dictLookup_cons, if_neg (Ne.symm h)]
      rw [dictLookup_cons, if_neg (fun e => (Ne.symm h) (hp ▸ e))]
      unfold dictLookup
      rw [find_map_update v h d]
    · rw [dictInsert_cons_ne d v hp, dictLookup_cons, dictLookup_cons]
      by_cases hc : p.1 = c
      · rw [if_pos hc, if_pos hc]
      · rw [if_neg hc, if_neg hc]
        exact ih

/-- The description attached to the last occurrence of code `c` in the table
`t` (the first match when scanning the reversed table), if any. -/
def lastOccDesc (t : List CanonicalRow) (c : String) : Option String :=
  (List.find? (fun r => decide (r.code = c)) t.reverse).map CanonicalRow.description

/-- Unfolding `lastOccDesc` over a cons cell: the tail's last occurrence takes
priority over the head. -/
theorem lastOccDesc_cons (r : CanonicalRow) (t : List CanonicalRow) (c : String) :
    lastOccDesc (r :: t) c =
      (lastOccDesc t c).or (if r.code = c then some r.description else none) := by
  unfold lastOccDesc
  rw [List.reverse_cons, List.find?_append]
  cases hf : List.find? (fun r => decide (r.code = c)) t.reverse with
  | none =>
    by_cases hr : r.code = c <;>
      simp [List.find?, hr]
  | some q =>
    by_cases hr : r.code = c <;>
      simp

/-- Looking up `c` after folding the rows of `t` into a dict starting from `d`:
the last occurrence in `t` wins, falling back to the initial dict. -/
theorem dictLookup_foldl_insert (t : List CanonicalRow) (c : String) :
    ∀ d, dictLookup (t.foldl (fun d r => dictInsert d r.code r.description) d) c =
      (lastOccDesc t c).or (dictLookup d c) := by
  induction t with
  | nil =>
    intro d
    simp [lastOccDesc]
  | cons r t ih =>
    intro d
    rw [List.foldl_cons, ih (dictInsert d r.code r.description), lastOccDesc_cons]
    by_cases hc : c = r.code
    · rw [hc, dictLookup_insert_self, if_pos rfl]
      cases lastOccDesc t r.code <;> rfl
    · rw [dictLookup_insert_ne d r.description hc, if_neg (Ne.symm hc)]
      cases lastOccDesc t c <;> rfl

/-- Looking up in the dict built from a table is exactly the last-occurrence
description. -/
theorem buildDict_lookup (t : List CanonicalRow) (c : String) :
    dictLookup (buildDict t) c = lastOccDesc t c := by
  unfold buildDict
  rw [dictLookup_foldl_insert]
  cases lastOccDesc t c <;> rfl

/-- The optional lookup `lastOccDesc` succeeds exactly on the codes occurring in the table. -/
theorem lastOccDesc_isSome_iff (t : List CanonicalRow) (c : String) :
    (lastOccDesc t c).isSome = true ↔ ∃ r ∈ t, r.code = c := by
  unfold lastOccDesc
  cases hf : List.find? (fun r => decide (r.code = c)) t.reverse with
  | none =>
    rw [List.find?_eq_none] at hf
    simp only [Option.map_none', Option.isSome_none, Bool.false_eq_true, false_iff]
    rintro ⟨r, hr, hrc⟩
    exact hf r (List.mem_reverse.mpr hr) (by simp [hrc])
  | some q =>
    simp only [Option.map_some', Option.isSome_some, true_iff]
    refine ⟨q, List.mem_reverse.mp (List.mem_of_find?_eq_some hf), ?_⟩
    have := List.find?_some hf
    simpa using this

/-! ### Loader facts -/

/-- A load with missing configuration or an empty fetch result produces the
empty state. -/
theorem load_empty_of_degraded {cfg : Config} {raw : List RawRecord}
    (hsnKey descKey : String) (h : configOk cfg = false ∨ raw = []) :
    load_and_process_hsn_data cfg hsnKey descKey raw = ⟨[], []⟩ := by
  unfold load_and_process_hsn_data
  rcases h with h | h
  · rw [h]
    rfl
  · subst h
    by_cases hc : configOk cfg <;> simp [hc]

/-- A load with valid configuration and a non-empty fetch result filters the
canonical rows and indexes the result. -/
theorem load_main_eq {cfg : Config} {raw : List RawRecord} (hsnKey descKey : String)
    (hc : configOk cfg = true) (hr : raw ≠ []) :
    load_and_process_hsn_data cfg hsnKey descKey raw =
      ⟨(canonicalRows hsnKey descKey raw).filter rowKeep,
        mkIndex ((canonicalRows hsnKey descKey raw).filter rowKeep)⟩ := by
  unfold load_and_process_hsn_data
  rw [hc]
  simp [hr]

/-- Every row of a freshly loaded table passes the loader's row filter. -/
theorem load_table_keep (cfg : Config) (hsnKey descKey : String) (raw : List RawRecord) :
    ∀ r ∈ (load_and_process_hsn_data cfg hsnKey descKey raw).HSN_DATA, rowKeep r = true := by
  by_cases hc : configOk cfg
  · rcases raw with _ | ⟨r0, rest⟩
    · rw [load_empty_of_degraded hsnKey descKey (Or.inr rfl)]
      intro r hr
      simp at hr
    · rw [load_main_eq hsnKey descKey hc (by simp)]
      intro r hr
      exact (List.mem_filter.mp hr).2
  · rw [load_empty_of_degraded hsnKey descKey (Or.inl (by simpa using hc))]
    intro r hr
    simp at hr

/-- After any load, the map global is the index of the table global. -/
theorem load_index_eq_mkIndex (cfg : Config) (hsnKey descKey : String)
    (raw : List RawRecord) :
    (load_and_process_hsn_data cfg hsnKey descKey raw).HSN_CODE_TO_DESCRIPTION_MAP =
      mkIndex (load_and_process_hsn_data cfg hsnKey descKey raw).HSN_DATA := by
  by_cases hc : configOk cfg
  · rcases raw with _ | ⟨r0, rest⟩
    · rw [load_empty_of_degraded hsnKey descKey (Or.inr rfl)]
      rfl
    · rw [load_main_eq hsnKey descKey hc (by simp)]
  · rw [load_empty_of_degraded hsnKey descKey (Or.inl (by simpa using hc))]
    rfl

/-- After any load, a non-empty map forces a non-empty table. -/
theorem load_table_ne_of_index_ne {cfg : Config} {hsnKey descKey : String}
    {raw : List RawRecord}
    (h : (load_and_process_hsn_data cfg hsnKey descKey raw).HSN_CODE_TO_DESCRIPTION_MAP ≠ []) :
    (load_and_process_hsn_data cfg hsnKey descKey raw).HSN_DATA ≠ [] := by
  intro ht
  rw [load_index_eq_mkIndex, ht] at h
  exact h rfl

/-- After any load, looking a code up in the map global gives the description
of the code's last occurrence in the table global. -/
theorem load_index_lookup (cfg : Config) (hsnKey descKey : String)
    (raw : List RawRecord) (c : String) :
    dictLookup (load_and_process_hsn_data cfg hsnKey descKey raw).HSN_CODE_TO_DESCRIPTION_MAP c =
      lastOccDesc (load_and_process_hsn_data cfg hsnKey descKey raw).HSN_DATA c := by
  rw [load_index_eq_mkIndex]
  have hkeep := load_table_keep cfg hsnKey descKey raw
  unfold mkIndex
  by_cases ht : (load_and_process_hsn_data cfg hsnKey descKey raw).HSN_DATA.isEmpty
  · rw [if_pos ht]
    rw [List.isEmpty_iff.mp ht]
    rfl
  · rw [if_neg ht]
    rw [List.filter_eq_self.mpr (fun r hr => by
      have hk := hkeep r hr
      unfold rowKeep at hk
      simp only [Bool.and_eq_true] at hk
      exact hk.1)]
    exact buildDict_lookup _ c

/-! ### Validator facts -/

/-- Every branch of the per-code classification echoes the (trimmed) code it
was given. -/
theorem validateOne_hsn_code (idx : List (String × String)) (code : String) :
    (validateOne idx code).hsn_code = code := by
  unfold validateOne
  by_cases h0 : code = ""
  · rw [if_pos h0]
  · rw [if_neg h0]
    by_cases h1 : !pyIsDigit code
    · rw [if_pos h1]
    · rw [if_neg h1]
      cases dictLookup idx code <;> rfl

/-- The per-code classification only ever produces `invalid` or `valid`. -/
theorem validateOne_status (idx : List (String × String)) (code : String) :
    (validateOne idx code).status = "invalid" ∨ (validateOne idx code).status = "valid" := by
  unfold validateOne
  by_cases h0 : code = ""
  · rw [if_pos h0]
    exact Or.inl rfl
  · rw [if_neg h0]
    by_cases h1 : !pyIsDigit code
    · rw [if_pos h1]
      exact Or.inl rfl
    · rw [if_neg h1]
      cases dictLookup idx code
      · exact Or.inl rfl
      · exact Or.inr rfl

/-- The guard of line 136 is false exactly when both globals are non-empty. -/
theorem validate_guard_false {g : GlobalState} (ht : g.HSN_DATA ≠ [])
    (hi : g.HSN_CODE_TO_DESCRIPTION_MAP ≠ []) :
    (g.HSN_DATA.isEmpty || g.HSN_CODE_TO_DESCRIPTION_MAP.isEmpty) = false := by
  simp [ht, hi]

/-- With non-empty master data, a single code is trimmed and classified. -/
theorem validate_single_main {g : GlobalState} (ht : g.HSN_DATA ≠ [])
    (hi : g.HSN_CODE_TO_DESCRIPTION_MAP ≠ []) (s : String) :
    validate_hsn_code_from_gsheet g (.single s) =
      [validateOne g.HSN_CODE_TO_DESCRIPTION_MAP (pyStrip s)] := by
  unfold validate_hsn_code_from_gsheet
  rw [validate_guard_false ht hi]
  rfl

/-- With non-empty master data, a list of codes is trimmed and classified
element by element. -/
theorem validate_many_main {g : GlobalState} (ht : g.HSN_DATA ≠ [])
    (hi : g.HSN_CODE_TO_DESCRIPTION_MAP ≠ []) (l : List String) :
    validate_hsn_code_from_gsheet g (.many l) =
      (l.map pyStrip).map (validateOne g.HSN_CODE_TO_DESCRIPTION_MAP) := by
  unfold validate_hsn_code_from_gsheet
  rw [validate_guard_false ht hi]
  rfl

/-- With empty master data, a single code is echoed untrimmed with the error
verdict. -/
theorem validate_single_err {g : GlobalState}
    (hg : (g.HSN_DATA.isEmpty || g.HSN_CODE_TO_DESCRIPTION_MAP.isEmpty) = true) (s : String) :
    validate_hsn_code_from_gsheet g (.single s) =
      [⟨s, "error", "HSN Master Data from Google Sheet not available or empty.", ""⟩] := by
  unfold validate_hsn_code_from_gsheet
  rw [if_pos hg]
  rfl

/-- With empty master data, a list of codes is echoed untrimmed, each with the
error verdict. -/
theorem validate_many_err {g : GlobalState}
    (hg : (g.HSN_DATA.isEmpty || g.HSN_CODE_TO_DESCRIPTION_MAP.isEmpty) = true) (l : List String) :
    validate_hsn_code_from_gsheet g (.many l) =
      l.map (fun code =>
        ⟨code, "error", "HSN Master Data from Google Sheet not available or empty.", ""⟩) := by
  unfold validate_hsn_code_from_gsheet
  rw [if_pos hg]

/-! ### Sample data for concrete witnesses -/

/-- A fully populated configuration. -/
def sampleConfig : Config := ⟨some "sheet-id", some "HSN_Master", some "creds.json"⟩

/-- Sample raw records: a variant header spelling, a whitespace-padded code, a
non-numeric code (dropped by the loader) and a duplicated code (last
description wins). -/
def sampleRaw : List RawRecord :=
  [[("HSN Code", " 0101 "), ("Description", "Horses")],
   [("HSN Code", "AB12"), ("Description", "Exotic")],
   [("HSN Code", "0101"), ("Description", "Live horses")],
   [("HSN Code", "99"), ("Description", "Misc")]]

/-- The state produced by loading the sample records. -/
def sampleState : GlobalState :=
  load_and_process_hsn_data sampleConfig "HSNCode" "Description" sampleRaw

/-! ### Claims -/

/-- The spec's row-filter predicate, stated from the spec's own words: the
trimmed code is non-empty and consists exclusively of decimal digit
characters.  Compared below against the loader's `rowKeep`. -/
def specRowFilter (r : CanonicalRow) : Bool :=
  decide (r.code ≠ "") && r.code.data.all Char.isDigit

/-- The loader's filter coincides with the spec's filter predicate. -/
theorem rowKeep_eq_specRowFilter (r : CanonicalRow) : rowKeep r = specRowFilter r := by
  unfold rowKeep specRowFilter pyIsDigit
  by_cases h : r.code = ""
  · simp [h]
  · have hd : r.code.data ≠ [] := fun e => h ((string_data_eq_nil_iff r.code).mp e)
    simp [h, hd]

/-- Claim C6: a load whose raw-record input is empty, or that aborts early on
missing configuration, replaces both process-wide structures (whatever their
previous contents) with empty values. -/
theorem claim_C6 (prev : GlobalState) (cfg : Config) (hsnKey descKey : String)
    (raw : List RawRecord) (h : configOk cfg = false ∨ raw = []) :
    loadStep prev cfg hsnKey descKey raw = ⟨[], []⟩ := by
  unfold loadStep
  exact load_empty_of_degraded hsnKey descKey h

/-- Witness for C6: a previously populated state is wiped by a load with a
missing spreadsheet id. -/
theorem claim_C6_witness :
    loadStep ⟨[⟨"0101", "Horses"⟩], [("0101", "Horses")]⟩
      ⟨none, some "HSN_Master", some "creds.json"⟩ "HSNCode" "Description" sampleRaw =
      ⟨[], []⟩ :=
  claim_C6 ⟨[⟨"0101", "Horses"⟩], [("0101", "Horses")]⟩
    ⟨none, some "HSN_Master", some "creds.json"⟩ "HSNCode" "Description" sampleRaw
    (Or.inl (by decide))

/-- Claim C9: the validate operation never modifies the process-wide table or
code-to-description map; the state after the call is the state before it. -/
theorem claim_C9 (g : GlobalState) (input : HsnInput) :
    (validateStep g input).1 = g ∧
    (validateStep g input).1.HSN_DATA = g.HSN_DATA ∧
    (validateStep g input).1.HSN_CODE_TO_DESCRIPTION_MAP = g.HSN_CODE_TO_DESCRIPTION_MAP :=
  ⟨rfl, rfl, rfl⟩

/-- Claim C2: after every load the table consists exactly of the canonical
rows, in order, whose trimmed code is non-empty and all-digit (the spec's
filter), and every row of any loaded table satisfies that invariant. -/
theorem claim_C2 :
    (∀ (cfg : Config) (hsnKey descKey : String) (raw : List RawRecord),
      configOk cfg = true → raw ≠ [] →
        (load_and_process_hsn_data cfg hsnKey descKey raw).HSN_DATA =
          (canonicalRows hsnKey descKey raw).filter specRowFilter) ∧
    (∀ (cfg : Config) (hsnKey descKey : String) (raw : List RawRecord),
      ∀ r ∈ (load_and_process_hsn_data cfg hsnKey descKey raw).HSN_DATA,
        r.code ≠ "" ∧ r.code.data.all Char.isDigit = true) := by
  constructor
  · intro cfg hk dk raw hc hr
    rw [load_main_eq hk dk hc hr]
    exact List.filter_congr (fun r _ => rowKeep_eq_specRowFilter r)
  · intro cfg hk dk raw r hr
    have h2 := load_table_keep cfg hk dk raw r hr
    rw [rowKeep_eq_specRowFilter] at h2
    unfold specRowFilter at h2
    simp only [Bool.and_eq_true, decide_eq_true_eq] at h2
    exact h2

/-- Witness for C2: on the sample data the loaded table is the filtered
canonical-row sequence (the `AB12` row is dropped, both `0101` rows and the
`99` row survive in order). -/
theorem claim_C2_witness :
    (load_and_process_hsn_data sampleConfig "HSNCode" "Description" sampleRaw).HSN_DATA =
      (canonicalRows "HSNCode" "Description" sampleRaw).filter specRowFilter ∧
    (load_and_process_hsn_data sampleConfig "HSNCode" "Description" sampleRaw).HSN_DATA =
      [⟨"0101", "Horses"⟩, ⟨"0101", "Live horses"⟩, ⟨"99", "Misc"⟩] :=
  ⟨claim_C2.1 sampleConfig "HSNCode" "Description" sampleRaw (by decide) (by decide),
   by decide⟩

/-- Claim C3: after every load, looking any code up in the produced index
gives the description of that code's last occurrence in the table (later
duplicates overwrite earlier ones), and the index is defined exactly on the
codes occurring in the table. -/
theorem claim_C3 (cfg : Config) (hsnKey descKey : String) (raw : List RawRecord)
    (c : String) :
    dictLookup (load_and_process_hsn_data cfg hsnKey descKey raw).HSN_CODE_TO_DESCRIPTION_MAP c =
      lastOccDesc (load_and_process_hsn_data cfg hsnKey descKey raw).HSN_DATA c ∧
    ((dictLookup (load_and_process_hsn_data cfg hsnKey descKey raw).HSN_CODE_TO_DESCRIPTION_MAP c).isSome = true ↔
      ∃ r ∈ (load_and_process_hsn_data cfg hsnKey descKey raw).HSN_DATA, r.code = c) := by
  refine ⟨load_index_lookup cfg hsnKey descKey raw c, ?_⟩
  rw [load_index_lookup cfg hsnKey descKey raw c]
  exact lastOccDesc_isSome_iff _ c

/-- Witness for C3: on the sample data, the duplicated code `0101` maps to the
description of its later occurrence. -/
theorem claim_C3_witness :
    dictLookup (load_and_process_hsn_data sampleConfig "HSNCode" "Description"
        sampleRaw).HSN_CODE_TO_DESCRIPTION_MAP "0101" = some "Live horses" := by
  rw [(claim_C3 sampleConfig "HSNCode" "Description" sampleRaw "0101").1]
  decide

/-- Claim C7: header resolution inspects only the first raw record (the
canonical rows of a non-empty raw sequence are built from columns resolved
from that first record alone); for each expected key it picks the first header
with the same normalization, and falls back to the expected key literally when
no header matches. -/
theorem claim_C7 (hsnKey descKey : String) (r : RawRecord) (rest : List RawRecord)
    (headers : List String) (key : String) :
    canonicalRows hsnKey descKey (r :: rest) =
      (r :: rest).map (toCanonical (resolveColumns r hsnKey descKey)) ∧
    resolveColumns r hsnKey descKey =
      (resolveHeader (recordHeaders r) hsnKey, resolveHeader (recordHeaders r) descKey) ∧
    ((∀ h ∈ headers, pyNormalizeHeader h ≠ pyNormalizeHeader key) →
      resolveHeader headers key = key) ∧
    (∀ pre h post, headers = pre ++ h :: post →
      pyNormalizeHeader h = pyNormalizeHeader key →
      (∀ h' ∈ pre, pyNormalizeHeader h' ≠ pyNormalizeHeader key) →
      resolveHeader headers key = h) := by
  refine ⟨rfl, rfl, ?_, ?_⟩
  · intro hnone
    unfold resolveHeader
    rw [List.find?_eq_none.mpr (fun x hx => by simpa using hnone x hx)]
  · intro pre h post heq hmatch hpre
    subst heq
    have hfind : ∀ pre2 : List String,
        (∀ h' ∈ pre2, pyNormalizeHeader h' ≠ pyNormalizeHeader key) →
        List.find? (fun x => decide (pyNormalizeHeader x = pyNormalizeHeader key))
          (pre2 ++ h :: post) = some h := by
      intro pre2
      induction pre2 with
      | nil =>
        intro _
        rw [List.nil_append, List.find?_cons_of_pos _ (by simpa using hmatch)]
      | cons q pre2 ih =>
        intro hp
        rw [List.cons_append, List.find?_cons_of_neg _ (by simpa using hp q (by simp))]
        exact ih (fun h' hh' => hp h' (by simp [hh']))
    unfold resolveHeader
    rw [hfind pre hpre]

/-- Witness for C7: the variant spelling `HSN Code` is chosen over a later
exact `HSNCode` because it normalizes equally and comes first, and with no
matching header the expected key itself is used. -/
theorem claim_C7_witness :
    resolveHeader ["Other", "HSN Code", "HSNCode"] "HSNCode" = "HSN Code" ∧
    resolveHeader ["Foo", "Bar"] "HSNCode" = "HSNCode" := by
  constructor
  · exact (claim_C7 "HSNCode" "Description" [] []
      ["Other", "HSN Code", "HSNCode"] "HSNCode").2.2.2 ["Other"] "HSN Code" ["HSNCode"]
      rfl (by decide) (by decide)
  · exact (claim_C7 "HSNCode" "Description" [] [] ["Foo", "Bar"] "HSNCode").2.2.1
      (by decide)

/-- Claim C8: the validator returns one verdict per input code, in input
order (the whole output is a pointwise image of the input list, and a single
string yields exactly one verdict), in both the empty-index branch and the
non-empty-index branch. -/
theorem claim_C8 (g : GlobalState) (l : List String) (s : String) :
    ∃ f : String → Verdict,
      validate_hsn_code_from_gsheet g (.many l) = l.map f ∧
      validate_hsn_code_from_gsheet g (.single s) = [f s] ∧
      (validate_hsn_code_from_gsheet g (.many l)).length = l.length ∧
      (validate_hsn_code_from_gsheet g (.single s)).length = 1 := by
  by_cases hg : (g.HSN_DATA.isEmpty || g.HSN_CODE_TO_DESCRIPTION_MAP.isEmpty) = true
  · refine ⟨fun code =>
      ⟨code, "error", "HSN Master Data from Google Sheet not available or empty.", ""⟩,
      validate_many_err hg l, validate_single_err hg s, ?_, ?_⟩
    · rw [validate_many_err hg l, List.length_map]
    · rw [validate_single_err hg s]
      rfl
  · have hg' : (g.HSN_DATA.isEmpty || g.HSN_CODE_TO_DESCRIPTION_MAP.isEmpty) = false := by
      simpa using hg
    have ht : g.HSN_DATA ≠ [] := by
      intro e
      rw [e] at hg'
      simp at hg'
    have hi : g.HSN_CODE_TO_DESCRIPTION_MAP ≠ [] := by
      intro e
      rw [e] at hg'
      simp at hg'
    refine ⟨fun code => validateOne g.HSN_CODE_TO_DESCRIPTION_MAP (pyStrip code),
      ?_, validate_single_main ht hi s, ?_, ?_⟩
    · rw [validate_many_main ht hi l, List.map_map]
      rfl
    · rw [validate_many_main ht hi l, List.length_map, List.length_map]
    · rw [validate_single_main ht hi s]
      rfl

/-- Claim C10: each verdict echoes the trimmed input code when the master data
is non-empty, but the untrimmed input in the empty-data error branch, so a
whitespace-padded input is echoed differently by the two branches. -/
theorem claim_C10 (g : GlobalState) (s : String) (l : List String) :
    ((g.HSN_DATA.isEmpty || g.HSN_CODE_TO_DESCRIPTION_MAP.isEmpty) = true →
      (validate_hsn_code_from_gsheet g (.single s)).map Verdict.hsn_code = [s] ∧
      (validate_hsn_code_from_gsheet g (.many l)).map Verdict.hsn_code = l) ∧
    ((g.HSN_DATA.isEmpty || g.HSN_CODE_TO_DESCRIPTION_MAP.isEmpty) = false →
      (validate_hsn_code_from_gsheet g (.single s)).map Verdict.hsn_code = [pyStrip s] ∧
      (validate_hsn_code_from_gsheet g (.many l)).map Verdict.hsn_code = l.map pyStrip) ∧
    (validate_hsn_code_from_gsheet ⟨[], []⟩ (.single " 0101 ")).map Verdict.hsn_code ≠
      (validate_hsn_code_from_gsheet sampleState (.single " 0101 ")).map Verdict.hsn_code := by
  refine ⟨?_, ?_, by decide⟩
  · intro hg
    rw [validate_single_err hg, validate_many_err hg]
    constructor
    · rfl
    · rw [List.map_map]
      exact List.map_id l
  · intro hg
    have ht : g.HSN_DATA ≠ [] := by
      intro e
      rw [e] at hg
      simp at hg
    have hi : g.HSN_CODE_TO_DESCRIPTION_MAP ≠ [] := by
      intro e
      rw [e] at hg
      simp at hg
    rw [validate_single_main ht hi, validate_many_main ht hi]
    constructor
    · simp [validateOne_hsn_code]
    · rw [List.map_map, List.map_map]
      exact List.map_congr_left (fun c _ => validateOne_hsn_code _ (pyStrip c))

/-- Witness for C10: the whitespace-padded code `" 7 "` is echoed verbatim by
the empty-data branch and trimmed to `"7"` by the non-empty branch. -/
theorem claim_C10_witness :
    (validate_hsn_code_from_gsheet ⟨[], []⟩ (.many [" 7 "])).map Verdict.hsn_code = [" 7 "] ∧
    (validate_hsn_code_from_gsheet sampleState (.many [" 7 "])).map Verdict.hsn_code = ["7"] := by
  constructor
  · exact ((claim_C10 ⟨[], []⟩ " 7 " [" 7 "]).1 (by decide)).2
  · have h := ((claim_C10 sampleState " 7 " [" 7 "]).2.1 (by decide)).2
    have h2 : ([" 7 "].map pyStrip) = ["7"] := by decide
    rw [h2] at h
    exact h

/-- Claim C1: with an empty code-to-description index every verdict has status
`error`, the master-data-unavailable message and an empty description; and for
any state produced by a load whose index is non-empty, no verdict ever has
status `error` (the loader guarantees a non-empty index comes with a non-empty
table, so the guard of line 136 cannot fire). -/
theorem claim_C1 :
    (∀ (g : GlobalState) (input : HsnInput),
      g.HSN_CODE_TO_DESCRIPTION_MAP = [] →
        ∀ v ∈ validate_hsn_code_from_gsheet g input,
          v.status = "error" ∧
          v.message = "HSN Master Data from Google Sheet not available or empty." ∧
          v.description = "") ∧
    (∀ (cfg : Config) (hsnKey descKey : String) (raw : List RawRecord) (input : HsnInput),
      (load_and_process_hsn_data cfg hsnKey descKey raw).HSN_CODE_TO_DESCRIPTION_MAP ≠ [] →
        ∀ v ∈ validate_hsn_code_from_gsheet
            (load_and_process_hsn_data cfg hsnKey descKey raw) input,
          v.status ≠ "error") := by
  constructor
  · intro g input hmap v hv
    have hg : (g.HSN_DATA.isEmpty || g.HSN_CODE_TO_DESCRIPTION_MAP.isEmpty) = true := by
      rw [hmap]
      simp
    cases input with
    | single s =>
      rw [validate_single_err hg] at hv
      rw [List.mem_singleton] at hv
      rw [hv]
      exact ⟨rfl, rfl, rfl⟩
    | many l =>
      rw [validate_many_err hg] at hv
      rw [List.mem_map] at hv
      obtain ⟨c, _, rfl⟩ := hv
      exact ⟨rfl, rfl, rfl⟩
  · intro cfg hk dk raw input hmap v hv
    have ht := load_table_ne_of_index_ne hmap
    cases input with
    | single s =>
      rw [validate_single_main ht hmap] at hv
      rw [List.mem_singleton] at hv
      rw [hv]
      rcases validateOne_status
          (load_and_process_hsn_data cfg hk dk raw).HSN_CODE_TO_DESCRIPTION_MAP
          (pyStrip s) with h | h <;> (rw [h]; decide)
    | many l =>
      rw [validate_many_main ht hmap] at hv
      rw [List.mem_map] at hv
      obtain ⟨c, _, rfl⟩ := hv
      rcases validateOne_status
          (load_and_process_hsn_data cfg hk dk raw).HSN_CODE_TO_DESCRIPTION_MAP
          c with h | h <;> (rw [h]; decide)

/-- Witness for C1: the error verdict produced by the empty state has status
`error`, while the verdict the loaded sample state gives for `0101` does not. -/
theorem claim_C1_witness :
    (⟨"0101", "error", "HSN Master Data from Google Sheet not available or empty.", ""⟩ :
      Verdict).status = "error" ∧
    (⟨"0101", "valid", "HSN code is valid. Description: Live horses", "Live horses"⟩ :
      Verdict).status ≠ "error" := by
  constructor
  · exact (claim_C1.1 ⟨[], []⟩ (.single "0101") rfl
      ⟨"0101", "error", "HSN Master Data from Google Sheet not available or empty.", ""⟩
      (by decide)).1
  · exact claim_C1.2 sampleConfig "HSNCode" "Description" sampleRaw (.single "0101")
      (by decide)
      ⟨"0101", "valid", "HSN code is valid. Description: Live horses", "Live horses"⟩
      (by decide)

/-- Claim C4: for every code that is a key of the non-empty index of a loaded
state, validating that single code yields exactly one verdict, with status
`valid`, the looked-up description in the description field, and a message
containing that description. -/
theorem claim_C4 (cfg : Config) (hsnKey descKey : String) (raw : List RawRecord)
    (c d : String)
    (hne : (load_and_process_hsn_data cfg hsnKey descKey raw).HSN_CODE_TO_DESCRIPTION_MAP ≠ [])
    (hl : dictLookup
      (load_and_process_hsn_data cfg hsnKey descKey raw).HSN_CODE_TO_DESCRIPTION_MAP c =
        some d) :
    validate_hsn_code_from_gsheet (load_and_process_hsn_data cfg hsnKey descKey raw)
        (.single c) =
      [⟨c, "valid", "HSN code is valid. Description: " ++ d, d⟩] := by
  have ht := load_table_ne_of_index_ne hne
  have hl' := hl
  rw [load_index_lookup cfg hsnKey descKey raw c] at hl'
  have hex : ∃ r ∈ (load_and_process_hsn_data cfg hsnKey descKey raw).HSN_DATA,
      r.code = c := by
    rw [← lastOccDesc_isSome_iff]
    rw [hl']
    rfl
  obtain ⟨r, hr, hrc⟩ := hex
  have hkr := load_table_keep cfg hsnKey descKey raw r hr
  unfold rowKeep at hkr
  simp only [Bool.and_eq_true] at hkr
  have hdig : pyIsDigit c = true := by
    rw [← hrc]
    exact hkr.2
  obtain ⟨hcne, hall⟩ := pyIsDigit_spec hdig
  rw [validate_single_main ht hne, pyStrip_of_all_digit hall]
  unfold validateOne
  rw [if_neg hcne, if_neg (by simp [hdig]), hl]

/-- Witness for C4: the sample key `99` validates to a single `valid` verdict
carrying its description. -/
theorem claim_C4_witness :
    validate_hsn_code_from_gsheet
        (load_and_process_hsn_data sampleConfig "HSNCode" "Description" sampleRaw)
        (.single "99") =
      [⟨"99", "valid", "HSN code is valid. Description: Misc", "Misc"⟩] :=
  claim_C4 sampleConfig "HSNCode" "Description" sampleRaw "99" "Misc"
    (by decide) (by decide)

/-- Counterexample for C5 as frozen: the claim asserts the numeric-format
`invalid` verdict "including when the index is empty", but with empty master
data the code `12a` (non-empty, contains the non-digit `a`) gets status
`error` from the global short-circuit of line 136, not `invalid`. -/
theorem claim_C5_counterexample :
    (validate_hsn_code_from_gsheet
        (load_and_process_hsn_data sampleConfig "HSNCode" "Description" [])
        (.single "12a")).map Verdict.status = ["error"] ∧
    ("error" : String) ≠ "invalid" := by
  constructor
  · decide
  · decide

/-- Claim C5 (amended): for every code that after trimming is non-empty and
contains a non-digit character, validating it against any loaded state whose
index is non-empty yields the `invalid` verdict with the numeric-format
message, regardless of the index's contents; with an empty index the global
error branch takes precedence instead. -/
theorem claim_C5 (cfg : Config) (hsnKey descKey : String) (raw : List RawRecord)
    (c : String)
    (hne : (load_and_process_hsn_data cfg hsnKey descKey raw).HSN_CODE_TO_DESCRIPTION_MAP ≠ [])
    (hnem : pyStrip c ≠ "")
    (hnd : ∃ ch ∈ (pyStrip c).data, ¬ ch.isDigit = true) :
    validate_hsn_code_from_gsheet (load_and_process_hsn_data cfg hsnKey descKey raw)
        (.single c) =
      [⟨pyStrip c, "invalid", "HSN code must be numeric.", ""⟩] := by
  have ht := load_table_ne_of_index_ne hne
  have hall : (pyStrip c).data.all Char.isDigit = false := by
    obtain ⟨ch, hm, hd⟩ := hnd
    by_cases h : (pyStrip c).data.all Char.isDigit = true
    · rw [List.all_eq_true] at h
      exact absurd (h ch hm) hd
    · simpa using h
  rw [validate_single_main ht hne]
  unfold validateOne
  rw [if_neg hnem, if_pos (by unfold pyIsDigit; rw [hall]; simp)]

/-- Witness for the amended C5: against the non-empty sample state, the padded
non-numeric code `" 12a "` is trimmed and rejected with the numeric-format
message. -/
theorem claim_C5_witness :
    validate_hsn_code_from_gsheet
        (load_and_process_hsn_data sampleConfig "HSNCode" "Description" sampleRaw)
        (.single " 12a ") =
      [⟨"12a", "invalid", "HSN code must be numeric.", ""⟩] := by
  have h := claim_C5 sampleConfig "HSNCode" "Description" sampleRaw " 12a "
    (by decide) (by decide) ⟨'a', by decide, by decide⟩
  have h2 : pyStrip " 12a " = "12a" := by decide
  rw [h2] at h
  exact h

/-- Witness for C8: two sample codes yield two verdicts, one sample code
yields one. -/
theorem claim_C8_witness :
    (validate_hsn_code_from_gsheet sampleState (.many ["0101", "77"])).length = 2 ∧
    (validate_hsn_code_from_gsheet sampleState (.single "0101")).length = 1 := by
  obtain ⟨f, h1, h2, h3, h4⟩ := claim_C8 sampleState ["0101", "77"] "0101"
  constructor
  · rw [h3]
    rfl
  · exact h4

/-- Witness for C9: validating against the loaded sample state leaves it
unchanged. -/
theorem claim_C9_witness :
    (validateStep sampleState (.single "0101")).1 = sampleState :=
  (claim_C9 sampleState (.single "0101")).1
